import Mathlib

/-
Verification development for the navigation/session subsystem of
better-django-tables (better_django_tables/view_mixins.py and conf.py).

The session store is modelled as an association list from string keys to
session values; wall-clock time is an explicit integer parameter; the
uuid-based token minting is supplied as an explicit oracle argument.
All definitions are shallow embeddings of the Python source.
-/

/-- One navigation entry, as written by
NavigationStorageMixin.store_navigation_pks (view_mixins.py:519-553):
the dict with keys pks, timestamp, total_count, limited, referrer_url. -/
structure NavData where
  pks : List Int
  timestamp : Int
  total_count : Nat
  limited : Bool
  referrer_url : String
deriving Repr, DecidableEq

/-- A value held in the session store: either a navigation entry (a non-empty
dict with a timestamp), or some unrelated session value. -/
inductive SVal where
  | nav (d : NavData)
  | other (v : String)
deriving Repr, DecidableEq

/-- The per-client session store: a string-keyed mapping, modelled as an
association list in insertion order (Python dicts preserve insertion order). -/
abbrev Session := List (String × SVal)

/-- Python `key in session`. -/
def sessionContains (s : Session) (k : String) : Bool :=
  s.any (fun kv => kv.1 == k)

/-- Python `session.get(key)`: first entry with the given key, if any. -/
def sessionGet? (s : Session) (k : String) : Option SVal :=
  match s.find? (fun kv => kv.1 == k) with
  | some kv => some kv.2
  | none => none

/-- Python `session[key] = value`: replace in place if present, else append. -/
def sessionSet (s : Session) (k : String) (v : SVal) : Session :=
  if sessionContains s k then
    s.map (fun kv => if kv.1 == k then (k, v) else kv)
  else
    s ++ [(k, v)]

/-- Python `del session[key]` applied to each key of a list. -/
def sessionDeleteKeys (s : Session) (ks : List String) : Session :=
  s.filter (fun kv => !(ks.contains kv.1))

/-- Python `str.startswith`, via the character lists of the two strings. -/
def pyStartsWith (s stem : String) : Bool :=
  stem.data.isPrefixOf s.data

/-- conf.NAVIGATION_SESSION_KEY_PREFIX (conf.py:31-37), default value. -/
def navSessionKeyStem : String := "bdt_nav_"

/-- The configuration constants of conf.py consumed by the navigation
subsystem, with their default values. -/
structure NavConfig where
  max_pk_count : Nat := 500
  context_window : Nat := 50
  session_timeout : Int := 3600
  max_contexts : Nat := 50
deriving Repr, DecidableEq

/-- The f-string `f"{conf.NAVIGATION_SESSION_KEY_PREFIX}token_{nav_token}"`
shared by both session-key derivations (view_mixins.py:112 and 405). -/
def navKeyStr (t : String) : String :=
  navSessionKeyStem ++ "token_" ++ t

/-- SaveAndNextMixin.get_navigation_session_key (view_mixins.py:101-114):
a truthy token maps to the namespaced key, a None/empty token to None. -/
def saveNext_get_navigation_session_key (navToken : Option String) : Option String :=
  match navToken with
  | some t => if t = "" then none else some (navKeyStr t)
  | none => none

/-- NavigationStorageMixin.get_navigation_session_key (view_mixins.py:397-407):
a truthy token maps to the namespaced key; a None/empty token falls back to
the default key `prefix + "token_default"`. -/
def storage_get_navigation_session_key (navToken : Option String) : String :=
  match navToken with
  | some t => if t = "" then navSessionKeyStem ++ "token_default" else navKeyStr t
  | none => navSessionKeyStem ++ "token_default"

/-- Python `list.index`, returning the index of the first occurrence
(None models the ValueError branch). -/
def pyIndex {α : Type} [DecidableEq α] (c : α) : List α → Option Nat
  | [] => none
  | x :: xs => if x = c then some 0 else (pyIndex c xs).map (· + 1)

/-- SaveAndNextMixin.get_navigation_data (view_mixins.py:116-141):
resolve the session key from the token, read the entry, and treat it as
absent when it is missing, empty, or older than the timeout.
`none` models the empty dict `{}`. -/
def get_navigation_data (now timeout : Int) (s : Session) (navToken : Option String) :
    Option NavData :=
  match saveNext_get_navigation_session_key navToken with
  | none => none
  | some key =>
    match sessionGet? s key with
    | some (.nav d) => if timeout < now - d.timestamp then none else some d
    | _ => none

/-- SaveAndNextMixin.get_navigation_pks (view_mixins.py:143-146):
`nav_data.get("pks", [])`. -/
def get_navigation_pks (now timeout : Int) (s : Session) (navToken : Option String) :
    List Int :=
  match get_navigation_data now timeout s navToken with
  | some d => d.pks
  | none => []

/-- SaveAndNextMixin.get_current_position (view_mixins.py:148-165):
the 0-based index of the current pk and the total count, or (None, None). -/
def get_current_position (pks : List Int) (currentPk : Int) : Option Nat × Option Nat :=
  match pyIndex currentPk pks with
  | some i => (some i, some pks.length)
  | none => (none, none)

/-- The position dict built by SaveAndNextMixin.get_context_data
(view_mixins.py:262-269): 1-based current index and total, or None. -/
def position_context (pks : List Int) (currentPk : Int) : Option (Nat × Nat) :=
  match get_current_position pks currentPk with
  | (some i, some t) => some (i + 1, t)
  | _ => none

/-- SaveAndNextMixin.get_next_pk (view_mixins.py:167-182). -/
def get_next_pk (pks : List Int) (currentPk : Int) : Option Int :=
  if pks = [] then none
  else
    match pyIndex currentPk pks with
    | some i => if i < pks.length - 1 then pks[i + 1]? else none
    | none => none

/-- SaveAndNextMixin.get_previous_pk (view_mixins.py:184-199). -/
def get_previous_pk (pks : List Int) (currentPk : Int) : Option Int :=
  if pks = [] then none
  else
    match pyIndex currentPk pks with
    | some i => if 0 < i then pks[i - 1]? else none
    | none => none

/-- SaveAndNextMixin.get_close_url (view_mixins.py:302-331).
`navData` is the result of get_navigation_data; `nextParam` is the combined
`next` request parameter (GET or POST); `listUrl` models the conventional
list-view URL lookup, `none` standing for the exception branch of `reverse`. -/
def get_close_url (navData : Option NavData) (nextParam : Option String)
    (listUrl : Option String) : String :=
  let referrer := match navData with
    | some d => d.referrer_url
    | none => ""
  if referrer ≠ "" then referrer
  else
    match nextParam with
    | some n =>
      if n ≠ "" then n
      else match listUrl with
        | some u => u
        | none => "/"
    | none =>
      match listUrl with
      | some u => u
      | none => "/"

/-- NavigationStorageMixin.get_or_create_navigation_token
(view_mixins.py:376-395) in its initial state (no memoised _nav_token).
`fresh` is the oracle supplying the `uuid.uuid4().hex[:16]` value minted
when the request token is absent, empty, or not present in the session. -/
def get_or_create_navigation_token (s : Session) (requestToken : Option String)
    (fresh : String) : String :=
  match requestToken with
  | some t =>
    if t = "" then fresh
    else if sessionContains s (storage_get_navigation_session_key (some t)) then t
    else fresh
  | none => fresh

/-- NavigationStorageMixin.limit_pks_around_current (view_mixins.py:409-448). -/
def limit_pks_around_current (maxCount ctxWindow : Nat) (allPks : List Int)
    (currentPk : Option Int) : List Int :=
  if maxCount = 0 then allPks
  else if allPks.length ≤ maxCount then allPks
  else
    match currentPk with
    | none => allPks.take maxCount
    | some c =>
      match pyIndex c allPks with
      | none => allPks.take maxCount
      | some i =>
        let start := i - ctxWindow
        let stop := min allPks.length (i + ctxWindow + 1)
        let stop2 := if maxCount < stop - start then start + maxCount else stop
        (allPks.drop start).take (stop2 - start)

/-- The collection loop of cleanup_expired_navigation_data
(view_mixins.py:472-479): all session entries whose key starts with the
navigation prefix and whose value is a non-empty dict, paired with their
timestamps, in session order. -/
def collectNavContexts (s : Session) : List (String × Int) :=
  s.filterMap (fun kv =>
    if pyStartsWith kv.1 navSessionKeyStem then
      match kv.2 with
      | .nav d => some (kv.1, d.timestamp)
      | .other _ => none
    else none)

/-- One step of Python's stable ascending `list.sort(key=lambda x: x[1])`:
insert an element after every element with a smaller-or-equal timestamp. -/
def insertByTimestamp (x : String × Int) : List (String × Int) → List (String × Int)
  | [] => [x]
  | y :: ys => if y.2 < x.2 then y :: insertByTimestamp x ys else x :: y :: ys

/-- Stable insertion sort by timestamp, ascending (Python `list.sort`). -/
def sortByTimestamp : List (String × Int) → List (String × Int)
  | [] => []
  | x :: xs => insertByTimestamp x (sortByTimestamp xs)

/-- The body of cleanup_expired_navigation_data (view_mixins.py:486-517),
run once the lazy trigger has fired: pass 1 deletes every expired context,
pass 2 enforces the max-contexts limit by deleting the oldest surviving
contexts (sorted by timestamp ascending), reserving one slot for the entry
about to be written. -/
def cleanup_run (cfg : NavConfig) (now : Int) (s : Session) : Session :=
  if 0 < cfg.max_contexts ∧
      cfg.max_contexts ≤ ((collectNavContexts s).filter
        (fun x => !(decide (cfg.session_timeout < now - x.2)))).length then
    sessionDeleteKeys
      (sessionDeleteKeys s (((collectNavContexts s).filter
        (fun x => decide (cfg.session_timeout < now - x.2))).map Prod.fst))
      (((sortByTimestamp ((collectNavContexts s).filter
          (fun x => !(decide (cfg.session_timeout < now - x.2))))).take
        (((collectNavContexts s).filter
          (fun x => !(decide (cfg.session_timeout < now - x.2)))).length
          - cfg.max_contexts + 1)).map Prod.fst)
  else
    sessionDeleteKeys s (((collectNavContexts s).filter
      (fun x => decide (cfg.session_timeout < now - x.2))).map Prod.fst)

/-- NavigationStorageMixin.cleanup_expired_navigation_data
(view_mixins.py:450-517): the lazy trigger (run only when forced or at/over
the max-contexts limit) in front of the two cleanup passes. -/
def cleanup_expired_navigation_data (cfg : NavConfig) (now : Int) (s : Session)
    (force : Bool) : Session :=
  if force = false ∧
      (cfg.max_contexts = 0 ∨ (collectNavContexts s).length < cfg.max_contexts) then
    s
  else
    cleanup_run cfg now s

/-- NavigationStorageMixin.store_navigation_pks (view_mixins.py:519-553):
lazy cleanup, window limiting, then write of the navigation entry. -/
def store_navigation_pks (cfg : NavConfig) (enable : Bool) (s : Session)
    (pks : List Int) (navToken : String) (currentPk : Option Int) (now : Int)
    (referrer : String) : Session :=
  if enable = false then s
  else
    let s1 := cleanup_expired_navigation_data cfg now s false
    let limited := limit_pks_around_current cfg.max_pk_count cfg.context_window pks currentPk
    sessionSet s1 (storage_get_navigation_session_key (some navToken))
      (.nav { pks := limited, timestamp := now, total_count := pks.length,
              limited := decide (limited.length < pks.length), referrer_url := referrer })

/-- The expiry predicate of get_navigation_data, as a Boolean on a stored
entry: true when the entry is a navigation dict whose age is within the
timeout. -/
def entryLive (now timeout : Int) (kv : String × SVal) : Bool :=
  match kv.2 with
  | .nav d => decide (now - d.timestamp ≤ timeout)
  | .other _ => false

/-- Whether the store holds a live (non-expired) navigation entry under the
given key, the liveness notion used by the specification. -/
def sessionHasLiveEntry (now timeout : Int) (s : Session) (k : String) : Bool :=
  match sessionGet? s k with
  | some (.nav d) => decide (now - d.timestamp ≤ timeout)
  | _ => false

/-- Claim C7: with no current key and a limit of at least 1, the window
limiter returns exactly the length-min(len(K), m) prefix of K. -/
theorem limit_pks_no_current_is_bounded_prefix (m w : Nat) (K : List Int) (hm : 1 ≤ m) :
    limit_pks_around_current m w K none = K.take (min K.length m) ∧
    (limit_pks_around_current m w K none).length = min K.length m := by
  have hm0 : ¬ m = 0 := by omega
  by_cases hlen : K.length ≤ m
  · have hmin : min K.length m = K.length := Nat.min_eq_left hlen
    simp [limit_pks_around_current, hm0, hlen, hmin]
  · have hlt : m < K.length := Nat.lt_of_not_le hlen
    have hmin : min K.length m = m := Nat.min_eq_right (Nat.le_of_lt hlt)
    simp [limit_pks_around_current, hm0, hlen, hmin, Nat.min_eq_left (Nat.le_of_lt hlt)]

/-- Witness for limit_pks_no_current_is_bounded_prefix at m = 2, w = 0,
K = [5, 6, 7]. -/
theorem limit_pks_no_current_is_bounded_prefix_witness :
    1 ≤ 2 ∧
    (limit_pks_around_current 2 0 [5, 6, 7] none = List.take (min (List.length [(5 : Int), 6, 7]) 2) [5, 6, 7] ∧
     (limit_pks_around_current 2 0 [5, 6, 7] none).length = min (List.length [(5 : Int), 6, 7]) 2) :=
  ⟨by decide, limit_pks_no_current_is_bounded_prefix 2 0 [5, 6, 7] (by decide)⟩

/-- Claim C5: traversal over a live entry with key list [10, 20, 30]:
from 20 the previous key is 10, the next key is 30 and the reported
position is the 1-based pair (2, 3); from 10 the previous key is None;
for the absent key 999 the position is (None, None) and both neighbours
are None. -/
theorem traversal_example_entry :
    get_navigation_pks 100 3600
      [(navKeyStr "t5", .nav ⟨[10, 20, 30], 100, 3, false, "u"⟩)] (some "t5") = [10, 20, 30] ∧
    get_previous_pk [10, 20, 30] 20 = some 10 ∧
    get_next_pk [10, 20, 30] 20 = some 30 ∧
    position_context [10, 20, 30] 20 = some (2, 3) ∧
    get_previous_pk [10, 20, 30] 10 = none ∧
    get_current_position [10, 20, 30] 999 = (none, none) ∧
    get_next_pk [10, 20, 30] 999 = none ∧
    get_previous_pk [10, 20, 30] 999 = none := by decide

/-- Claim C6: the close URL is chosen in strict priority order: the entry's
stored referrer_url when non-empty (regardless of the next parameter),
then a non-empty next parameter, then the conventional list URL, then
the root fallback. -/
theorem close_url_priority_order (d : NavData) (n u : String)
    (hr : d.referrer_url ≠ "") (hn : n ≠ "") :
    get_close_url (some d) (some n) (some u) = d.referrer_url ∧
    get_close_url (some { d with referrer_url := "" }) (some n) (some u) = n ∧
    get_close_url none (some n) (some u) = n ∧
    get_close_url none none (some u) = u ∧
    get_close_url none none none = "/" := by
  refine ⟨?_, ?_, ?_, ?_, ?_⟩ <;> simp [get_close_url, hr, hn]

/-- Witness for close_url_priority_order at a concrete entry and parameters. -/
theorem close_url_priority_order_witness :
    get_close_url (some ⟨[], 0, 0, false, "http://o/"⟩) (some "/x") (some "/list") = "http://o/" ∧
    get_close_url (some { (⟨[], 0, 0, false, "http://o/"⟩ : NavData) with referrer_url := "" })
      (some "/x") (some "/list") = "/x" ∧
    get_close_url none (some "/x") (some "/list") = "/x" ∧
    get_close_url none none (some "/list") = "/list" ∧
    get_close_url none none none = "/" :=
  close_url_priority_order ⟨[], 0, 0, false, "http://o/"⟩ "/x" "/list" (by decide) (by decide)

/-- Counterexample to claim C8: in NavigationStorageMixin a None or empty
token does not map to "no valid store key" — it maps to the fallback key
`bdt_nav_token_default`, the very key derived from the token "default". -/
theorem empty_token_default_key_counterexample :
    storage_get_navigation_session_key none = "bdt_nav_token_default" ∧
    storage_get_navigation_session_key (some "") = "bdt_nav_token_default" ∧
    storage_get_navigation_session_key none
      = storage_get_navigation_session_key (some "default") := by decide

/-- Claim C8 (amended): a non-empty token t derives, in both mixins, exactly
the key prefix ++ "token_" ++ t; in SaveAndNextMixin a None or empty token
derives no key and reads yield empty navigation data, while in
NavigationStorageMixin it falls back to the key prefix ++ "token_default". -/
theorem session_key_derivation (t : String) (now timeout : Int) (s : Session)
    (ht : t ≠ "") :
    saveNext_get_navigation_session_key (some t) = some (navSessionKeyStem ++ "token_" ++ t) ∧
    storage_get_navigation_session_key (some t) = navSessionKeyStem ++ "token_" ++ t ∧
    saveNext_get_navigation_session_key none = none ∧
    saveNext_get_navigation_session_key (some "") = none ∧
    storage_get_navigation_session_key none = navSessionKeyStem ++ "token_default" ∧
    get_navigation_data now timeout s none = none ∧
    get_navigation_pks now timeout s none = [] := by
  refine ⟨?_, ?_, ?_, ?_, ?_, ?_, ?_⟩ <;>
    simp [saveNext_get_navigation_session_key, storage_get_navigation_session_key,
      get_navigation_data, get_navigation_pks, navKeyStr, ht]

/-- Witness for session_key_derivation at t = "abc". -/
theorem session_key_derivation_witness :
    saveNext_get_navigation_session_key (some "abc")
      = some (navSessionKeyStem ++ "token_" ++ "abc") ∧
    storage_get_navigation_session_key (some "abc") = navSessionKeyStem ++ "token_" ++ "abc" ∧
    saveNext_get_navigation_session_key none = none ∧
    saveNext_get_navigation_session_key (some "") = none ∧
    storage_get_navigation_session_key none = navSessionKeyStem ++ "token_default" ∧
    get_navigation_data 0 3600 [] none = none ∧
    get_navigation_pks 0 3600 [] none = [] :=
  session_key_derivation "abc" 0 3600 [] (by decide)

/-- Counterexample to claim C2: the code validates a request token by key
presence only; an expired entry (age 3601 > 3600) still causes the token to
be returned unchanged, although no live entry exists under its key. -/
theorem token_reuse_counterexample :
    get_or_create_navigation_token [(navKeyStr "abc", .nav ⟨[], 0, 0, false, ""⟩)]
      (some "abc") "0123456789abcdef" = "abc" ∧
    sessionHasLiveEntry 3601 3600 [(navKeyStr "abc", .nav ⟨[], 0, 0, false, ""⟩)]
      (storage_get_navigation_session_key (some "abc")) = false ∧
    ("abc" : String) ≠ "0123456789abcdef" := by decide

/-- Claim C2 (amended): get_or_create_navigation_token returns the request
token t unchanged iff t is non-empty and the session contains an entry —
expired or not — under the key derived from t; otherwise it returns the
freshly minted token. -/
theorem token_reuse_iff_presence (s : Session) (t fresh : String) (hne : fresh ≠ t) :
    (get_or_create_navigation_token s (some t) fresh = t ↔
      t ≠ "" ∧ sessionContains s (storage_get_navigation_session_key (some t)) = true) ∧
    get_or_create_navigation_token s none fresh = fresh := by
  constructor
  · unfold get_or_create_navigation_token
    by_cases ht : t = ""
    · subst ht
      simp [hne]
    · by_cases hc : sessionContains s (storage_get_navigation_session_key (some t)) = true
      · simp [ht, hc]
      · simp [ht, hc, hne]
  · rfl

/-- Witness for token_reuse_iff_presence on the empty session. -/
theorem token_reuse_iff_presence_witness :
    (get_or_create_navigation_token [] (some "a") "b" = "a" ↔
      ("a" : String) ≠ "" ∧ sessionContains [] (storage_get_navigation_session_key (some "a")) = true) ∧
    get_or_create_navigation_token [] none "b" = "b" :=
  token_reuse_iff_presence [] "a" "b" (by decide)

/-- pyIndex returns an index at which the element occurs. -/
theorem pyIndex_get? {α : Type} [DecidableEq α] {c : α} {l : List α} {i : Nat}
    (h : pyIndex c l = some i) : l[i]? = some c := by
  induction l generalizing i with
  | nil => simp [pyIndex] at h
  | cons x xs ih =>
    by_cases hx : x = c
    · simp [pyIndex, hx] at h
      subst h
      simp [hx]
    · simp [pyIndex, hx] at h
      rcases h with ⟨j, hj, hji⟩
      subst hji
      simpa using ih hj

/-- pyIndex finds the first occurrence: on xs ++ c :: ys with c not in xs it
returns the length of xs. -/
theorem pyIndex_append_cons {α : Type} [DecidableEq α] (xs ys : List α) (c : α)
    (hc : c ∉ xs) : pyIndex c (xs ++ c :: ys) = some xs.length := by
  induction xs with
  | nil => simp [pyIndex]
  | cons x xs ih =>
    have hx : ¬ x = c := by
      intro h
      exact hc (h ▸ List.mem_cons_self x xs)
    have hc2 : c ∉ xs := fun h => hc (List.mem_cons_of_mem _ h)
    simp [pyIndex, hx, ih hc2]

/-- Counterexample to claim C1: with m = 2 ≥ 1, context window w = 0,
K = [1, 2, 3] and current key 2 present in K, the limiter returns [2], whose
length 1 differs from min(len(K), m) = 2, although K is longer than m. -/
theorem limit_pks_window_length_counterexample :
    limit_pks_around_current 2 0 [1, 2, 3] (some 2) = [2] ∧
    (2 : Int) ∈ [(1 : Int), 2, 3] ∧
    ¬ ((limit_pks_around_current 2 0 [1, 2, 3] (some 2)).length
        = min (List.length [(1 : Int), 2, 3]) 2) := by decide

/-- Claim C1 (amended): for a current key c whose first index in K is i, the
window limiter returns a list containing c of length min(len(K), m),
provided the context window w satisfies w < m ≤ 2w + 1 and the full window
around i fits inside K (w ≤ i and i + w + 1 ≤ len(K)). -/
theorem limit_pks_window_contains_current (m w i : Nat) (K : List Int) (c : Int)
    (hidx : pyIndex c K = some i) (hwm : w < m) (hm2 : m ≤ 2 * w + 1)
    (hwi : w ≤ i) (hiw : i + w + 1 ≤ K.length) :
    c ∈ limit_pks_around_current m w K (some c) ∧
    (limit_pks_around_current m w K (some c)).length = min K.length m := by
  have hm0 : ¬ m = 0 := by omega
  by_cases hlen : K.length ≤ m
  · have hmem : c ∈ K := List.getElem?_mem (pyIndex_get? hidx)
    simp [limit_pks_around_current, hm0, hlen, hmem, Nat.min_eq_left hlen]
  · have hmlt : m < K.length := Nat.lt_of_not_le hlen
    have key1 : c ∈ (K.drop (i - w)).take m := by
      have hget : ((K.drop (i - w)).take m)[w]? = some c := by
        rw [List.getElem?_take_of_lt hwm, List.getElem?_drop]
        have hiww : i - w + w = i := by omega
        rw [hiww]
        exact pyIndex_get? hidx
      exact List.getElem?_mem hget
    have key2 : ((K.drop (i - w)).take m).length = min K.length m := by
      rw [List.length_take, List.length_drop]
      omega
    have hbranch : limit_pks_around_current m w K (some c) = (K.drop (i - w)).take m := by
      simp only [limit_pks_around_current, hidx]
      rw [if_neg hm0, if_neg hlen]
      rw [Nat.min_eq_right hiw]
      split_ifs with hcl
      · congr 1
        omega
      · congr 1
        omega
    rw [hbranch]
    exact ⟨key1, key2⟩

/-- Witness for limit_pks_window_contains_current at m = 3, w = 1,
K = [1, 2, 3, 4, 5], c = 3 (first index 2). -/
theorem limit_pks_window_contains_current_witness :
    pyIndex (3 : Int) [1, 2, 3, 4, 5] = some 2 ∧ 1 < 3 ∧ 3 ≤ 2 * 1 + 1 ∧ 1 ≤ 2 ∧
    2 + 1 + 1 ≤ List.length [(1 : Int), 2, 3, 4, 5] ∧
    ((3 : Int) ∈ limit_pks_around_current 3 1 [1, 2, 3, 4, 5] (some 3) ∧
     (limit_pks_around_current 3 1 [1, 2, 3, 4, 5] (some 3)).length
       = min (List.length [(1 : Int), 2, 3, 4, 5]) 3) :=
  ⟨by decide, by decide, by decide, by decide, by decide,
   limit_pks_window_contains_current 3 1 2 [1, 2, 3, 4, 5] 3 (by decide) (by decide)
     (by decide) (by decide) (by decide)⟩

/-- Claim C9: when the current key occurs several times, position, next and
previous are all computed from the first occurrence: on xs ++ c :: ys with
c not in xs (c may well occur again inside ys), the position is index
len(xs), the next key is the head of ys and the previous key is the last
element of xs. -/
theorem traversal_uses_first_occurrence (xs ys : List Int) (c : Int) (hc : c ∉ xs) :
    get_current_position (xs ++ c :: ys) c = (some xs.length, some (xs.length + (ys.length + 1))) ∧
    get_next_pk (xs ++ c :: ys) c = ys.head? ∧
    get_previous_pk (xs ++ c :: ys) c = xs.getLast? := by
  have hidx := pyIndex_append_cons xs ys c hc
  have hne : ¬ (xs ++ c :: ys = []) := by simp
  refine ⟨?_, ?_, ?_⟩
  · simp [get_current_position, hidx]
  · simp only [get_next_pk, if_neg hne, hidx]
    cases ys with
    | nil =>
      have hcond : ¬ (xs.length < (xs ++ [c]).length - 1) := by
        simp
      simp [hcond]
    | cons y ys' =>
      have hcond : xs.length < (xs ++ c :: y :: ys').length - 1 := by
        simp
      simp only [if_pos hcond]
      rw [List.getElem?_append_right (by omega : xs.length ≤ xs.length + 1)]
      simp
  · simp only [get_previous_pk, if_neg hne, hidx]
    by_cases hxs : 0 < xs.length
    · simp only [if_pos hxs]
      rw [List.getElem?_append_left (by omega : xs.length - 1 < xs.length)]
      rw [List.getLast?_eq_getElem?]
    · simp only [if_neg hxs]
      have : xs = [] := by
        cases xs with
        | nil => rfl
        | cons a l => simp at hxs
      subst this
      simp

/-- Witness for traversal_uses_first_occurrence with the duplicated key 2:
xs = [1], ys = [2, 3], so the full list is [1, 2, 2, 3]. -/
theorem traversal_uses_first_occurrence_witness :
    (2 : Int) ∉ [(1 : Int)] ∧
    (get_current_position ([1] ++ 2 :: [2, 3]) 2 = (some (List.length [(1 : Int)]),
        some (List.length [(1 : Int)] + (List.length [(2 : Int), 3] + 1))) ∧
     get_next_pk ([1] ++ 2 :: [2, 3]) 2 = ([2, 3] : List Int).head? ∧
     get_previous_pk ([1] ++ 2 :: [2, 3]) 2 = ([1] : List Int).getLast?) :=
  ⟨by decide, traversal_uses_first_occurrence [1] [2, 3] 2 (by decide)⟩

/-- Every key produced by navKeyStr starts with the navigation prefix. -/
theorem startsWith_navKeyStr (t : String) :
    pyStartsWith (navKeyStr t) navSessionKeyStem = true := by
  have hdata : (navKeyStr t).data = navSessionKeyStem.data ++ ("token_".data ++ t.data) := by
    simp [navKeyStr, List.append_assoc]
  simp [pyStartsWith, hdata, List.isPrefixOf_iff_prefix]

/-- Deleting the empty key list leaves the session unchanged. -/
theorem sessionDeleteKeys_nil (s : Session) : sessionDeleteKeys s [] = s := by
  simp [sessionDeleteKeys]

/-- Claim C4: an entry is treated as live iff now - created_at ≤
session_timeout: reading an entry aged timeout + 1 yields empty navigation
data (not an error) and a forced cleanup removes it, while an entry aged
timeout - 1 is returned by reads and survives cleanup. -/
theorem nav_entry_liveness (now timeout : Int) (t : String) (d : NavData) (ht : t ≠ "") :
    (get_navigation_data now timeout [(navKeyStr t, SVal.nav d)] (some t) = some d ↔
      now - d.timestamp ≤ timeout) ∧
    (d.timestamp = now - (timeout + 1) →
      get_navigation_data now timeout [(navKeyStr t, SVal.nav d)] (some t) = none ∧
      cleanup_expired_navigation_data { session_timeout := timeout } now
        [(navKeyStr t, SVal.nav d)] true = []) ∧
    (d.timestamp = now - (timeout - 1) →
      get_navigation_data now timeout [(navKeyStr t, SVal.nav d)] (some t) = some d ∧
      cleanup_expired_navigation_data { session_timeout := timeout } now
        [(navKeyStr t, SVal.nav d)] true = [(navKeyStr t, SVal.nav d)]) := by
  have hread : get_navigation_data now timeout [(navKeyStr t, SVal.nav d)] (some t)
      = if timeout < now - d.timestamp then none else some d := by
    simp [get_navigation_data, saveNext_get_navigation_session_key, ht, sessionGet?]
  have hcollect : collectNavContexts [(navKeyStr t, SVal.nav d)] = [(navKeyStr t, d.timestamp)] := by
    simp [collectNavContexts, startsWith_navKeyStr t]
  have hclean : cleanup_expired_navigation_data { session_timeout := timeout } now
      [(navKeyStr t, SVal.nav d)] true
      = if timeout < now - d.timestamp then [] else [(navKeyStr t, SVal.nav d)] := by
    by_cases hexp : timeout < now - d.timestamp
    · simp [cleanup_expired_navigation_data, cleanup_run, hcollect, hexp, sessionDeleteKeys]
    · simp [cleanup_expired_navigation_data, cleanup_run, hcollect, hexp, sessionDeleteKeys]
  refine ⟨?_, ?_, ?_⟩
  · rw [hread]
    split_ifs with h
    · constructor
      · intro hcontra
        cases hcontra
      · intro hle
        omega
    · constructor
      · intro _
        omega
      · intro _
        rfl
  · intro hts
    have hexp : timeout < now - d.timestamp := by omega
    rw [hread, hclean, if_pos hexp, if_pos hexp]
    exact ⟨rfl, rfl⟩
  · intro hts
    have hexp : ¬ (timeout < now - d.timestamp) := by omega
    rw [hread, hclean, if_neg hexp, if_neg hexp]
    exact ⟨rfl, rfl⟩

/-- Witness for nav_entry_liveness at t = "x" and a concrete entry. -/
theorem nav_entry_liveness_witness :
    (get_navigation_data 5000 3600 [(navKeyStr "x", SVal.nav ⟨[7], 2000, 1, false, "u"⟩)]
        (some "x") = some ⟨[7], 2000, 1, false, "u"⟩ ↔
      (5000 : Int) - (2000 : Int) ≤ 3600) ∧
    ((2000 : Int) = 5000 - (3600 + 1) →
      get_navigation_data 5000 3600 [(navKeyStr "x", SVal.nav ⟨[7], 2000, 1, false, "u"⟩)]
        (some "x") = none ∧
      cleanup_expired_navigation_data { session_timeout := 3600 } 5000
        [(navKeyStr "x", SVal.nav ⟨[7], 2000, 1, false, "u"⟩)] true = []) ∧
    ((2000 : Int) = 5000 - (3600 - 1) →
      get_navigation_data 5000 3600 [(navKeyStr "x", SVal.nav ⟨[7], 2000, 1, false, "u"⟩)]
        (some "x") = some ⟨[7], 2000, 1, false, "u"⟩ ∧
      cleanup_expired_navigation_data { session_timeout := 3600 } 5000
        [(navKeyStr "x", SVal.nav ⟨[7], 2000, 1, false, "u"⟩)] true
        = [(navKeyStr "x", SVal.nav ⟨[7], 2000, 1, false, "u"⟩)]) :=
  nav_entry_liveness 5000 3600 "x" ⟨[7], 2000, 1, false, "u"⟩ (by decide)

/-- Membership after a sorted insertion comes from the inserted element or
the original list. -/
theorem mem_insertByTimestamp {x y : String × Int} {l : List (String × Int)}
    (h : y ∈ insertByTimestamp x l) : y = x ∨ y ∈ l := by
  induction l with
  | nil =>
    simp [insertByTimestamp] at h
    exact Or.inl h
  | cons z zs ih =>
    by_cases hz : z.2 < x.2
    · rw [insertByTimestamp, if_pos hz] at h
      rcases List.mem_cons.mp h with h1 | h2
      · exact Or.inr (List.mem_cons.mpr (Or.inl h1))
      · rcases ih h2 with h3 | h4
        · exact Or.inl h3
        · exact Or.inr (List.mem_cons.mpr (Or.inr h4))
    · rw [insertByTimestamp, if_neg hz] at h
      rcases List.mem_cons.mp h with h1 | h2
      · exact Or.inl h1
      · exact Or.inr h2

/-- Sorting by timestamp introduces no new elements. -/
theorem mem_sortByTimestamp {y : String × Int} {l : List (String × Int)}
    (h : y ∈ sortByTimestamp l) : y ∈ l := by
  induction l with
  | nil => simp [sortByTimestamp] at h
  | cons z zs ih =>
    rw [sortByTimestamp] at h
    rcases mem_insertByTimestamp h with h1 | h2
    · exact List.mem_cons.mpr (Or.inl h1)
    · exact List.mem_cons.mpr (Or.inr (ih h2))

/-- Every context collected by the cleanup loop has a key starting with the
navigation prefix. -/
theorem collect_keys_prefixed (s : Session) (x : String × Int)
    (hx : x ∈ collectNavContexts s) : pyStartsWith x.1 navSessionKeyStem = true := by
  rw [collectNavContexts, List.mem_filterMap] at hx
  rcases hx with ⟨a, _, hfa⟩
  by_cases hp : pyStartsWith a.1 navSessionKeyStem
  · rw [if_pos hp] at hfa
    cases ha2 : a.2 with
    | nav d =>
      rw [ha2] at hfa
      cases hfa
      exact hp
    | other v =>
      rw [ha2] at hfa
      cases hfa
  · rw [if_neg hp] at hfa
    cases hfa

/-- Deleting keys that all carry the navigation prefix does not affect
membership of entries whose key lacks the prefix. -/
theorem mem_sessionDeleteKeys_iff (s : Session) (ks : List String) (k : String) (v : SVal)
    (hks : ∀ x ∈ ks, pyStartsWith x navSessionKeyStem = true)
    (hk : pyStartsWith k navSessionKeyStem = false) :
    ((k, v) ∈ sessionDeleteKeys s ks ↔ (k, v) ∈ s) := by
  have hnotmem : k ∉ ks := by
    intro hmem
    rw [hks k hmem] at hk
    cases hk
  have hcontains : ks.contains k = false := by
    by_contra hcon
    have : ks.contains k = true := by
      cases hc : ks.contains k
      · exact absurd hc hcon
      · rfl
    exact hnotmem (List.elem_iff.mp this)
  rw [sessionDeleteKeys]
  constructor
  · intro h
    exact (List.mem_filter.mp h).1
  · intro h
    exact List.mem_filter.mpr ⟨h, by simpa using hnotmem⟩

/-- Claim C10: cleanup deletes only keys with the navigation prefix; any
session entry whose key does not start with the prefix is present after
cleanup exactly as before. -/
theorem cleanup_preserves_foreign_keys (cfg : NavConfig) (now : Int) (s : Session)
    (force : Bool) (k : String) (v : SVal)
    (hk : pyStartsWith k navSessionKeyStem = false) :
    ((k, v) ∈ cleanup_expired_navigation_data cfg now s force ↔ (k, v) ∈ s) := by
  have hexpkeys : ∀ x ∈ ((collectNavContexts s).filter
      (fun y => decide (cfg.session_timeout < now - y.2))).map Prod.fst,
      pyStartsWith x navSessionKeyStem = true := by
    intro x hx
    rcases List.mem_map.mp hx with ⟨p, hp, hpx⟩
    exact hpx ▸ collect_keys_prefixed s p (List.mem_filter.mp hp).1
  have hevkeys : ∀ n, ∀ x ∈ ((sortByTimestamp ((collectNavContexts s).filter
      (fun y => !(decide (cfg.session_timeout < now - y.2))))).take n).map Prod.fst,
      pyStartsWith x navSessionKeyStem = true := by
    intro n x hx
    rcases List.mem_map.mp hx with ⟨p, hp, hpx⟩
    have hp2 : p ∈ sortByTimestamp ((collectNavContexts s).filter
        (fun y => !(decide (cfg.session_timeout < now - y.2)))) :=
      List.take_subset n _ hp
    have hp3 := mem_sortByTimestamp hp2
    exact hpx ▸ collect_keys_prefixed s p (List.mem_filter.mp hp3).1
  simp only [cleanup_expired_navigation_data, cleanup_run]
  split_ifs with h1 h2
  · exact Iff.rfl
  · rw [mem_sessionDeleteKeys_iff _ _ _ _ (hevkeys _), mem_sessionDeleteKeys_iff _ _ _ _ hexpkeys hk]
    exact hk
  · exact mem_sessionDeleteKeys_iff _ _ _ _ hexpkeys hk

/-- Witness for cleanup_preserves_foreign_keys: a per-page preference key
survives a forced cleanup that removes an expired navigation entry. -/
theorem cleanup_preserves_foreign_keys_witness :
    pyStartsWith "per_page_MyTable" navSessionKeyStem = false ∧
    ((("per_page_MyTable", SVal.other "25") ∈ cleanup_expired_navigation_data {} 5000
        [("per_page_MyTable", SVal.other "25"), (navKeyStr "a", SVal.nav ⟨[1], 0, 1, false, ""⟩)]
        true) ↔
      ("per_page_MyTable", SVal.other "25") ∈
        ([("per_page_MyTable", SVal.other "25"), (navKeyStr "a", SVal.nav ⟨[1], 0, 1, false, ""⟩)] :
          Session)) :=
  ⟨by decide,
   cleanup_preserves_foreign_keys {} 5000
     [("per_page_MyTable", SVal.other "25"), (navKeyStr "a", SVal.nav ⟨[1], 0, 1, false, ""⟩)]
     true "per_page_MyTable" (SVal.other "25") (by decide)⟩

/-- Bounds of membership in range' with step 1. -/
theorem mem_range'_bounds {m s n : Nat} (h : m ∈ List.range' s n) : s ≤ m ∧ m < s + n := by
  rcases List.mem_range'.mp h with ⟨i, hi, rfl⟩
  omega

/-- Token of the j-th inserted entry in the eviction scenario: a distinct
opaque string per step. -/
def navTok (j : Nat) : String := String.mk (List.replicate j 'a')

/-- The session entry written by the j-th insertion of the eviction
scenario: key list [1], creation time j. -/
def demoEntry (j : Nat) : String × SVal :=
  (navKeyStr (navTok j),
   .nav { pks := [1], timestamp := (j : Int), total_count := 1, limited := false,
          referrer_url := "r" })

/-- Entries l, l+1, ..., l+n-1 in insertion order. -/
def mkEntries (l n : Nat) : Session := (List.range' l n).map demoEntry

/-- Configuration of the eviction scenario: default limiter settings,
max_contexts = N. -/
def demoConfig (N : Nat) (timeout : Int) : NavConfig :=
  { max_pk_count := 500, context_window := 50, session_timeout := timeout,
    max_contexts := N }

/-- The session after k sequential store_navigation_pks calls (the j-th call
happens at time j with token navTok j), starting from an empty session. -/
def insertSeq (N : Nat) (timeout : Int) : Nat → Session
  | 0 => []
  | k + 1 => store_navigation_pks (demoConfig N timeout) true (insertSeq N timeout k)
      [1] (navTok (k + 1)) none ((k + 1 : Nat) : Int) "r"

theorem demoConfig_max (N : Nat) (timeout : Int) :
    (demoConfig N timeout).max_contexts = N := rfl

theorem demoConfig_timeout (N : Nat) (timeout : Int) :
    (demoConfig N timeout).session_timeout = timeout := rfl

theorem demoConfig_pk (N : Nat) (timeout : Int) :
    (demoConfig N timeout).max_pk_count = 500 := rfl

theorem demoConfig_window (N : Nat) (timeout : Int) :
    (demoConfig N timeout).context_window = 50 := rfl

/-- Length of the j-th scenario key. -/
theorem demoEntry_key_len (j : Nat) : (demoEntry j).1.length = 14 + j := by
  have h1 : navSessionKeyStem.length = 8 := rfl
  have h2 : ("token_" : String).length = 6 := rfl
  have h3 : (navTok j).length = j := by simp [navTok]
  simp [demoEntry, navKeyStr, String.length_append, h1, h2, h3]

/-- Distinct steps produce distinct session keys. -/
theorem demoEntry_key_ne {j k : Nat} (h : j ≠ k) : (demoEntry j).1 ≠ (demoEntry k).1 := by
  intro he
  have hlen := congrArg String.length he
  rw [demoEntry_key_len, demoEntry_key_len] at hlen
  omega

/-- navTok j is non-empty for j ≥ 1. -/
theorem navTok_ne_empty {j : Nat} (hj : 1 ≤ j) : navTok j ≠ "" := by
  intro h
  have hlen := congrArg String.length h
  simp [navTok] at hlen
  omega

/-- filterMap collapses to map when the function is total on the list. -/
theorem filterMap_eq_map_of_some {α β : Type} (f : α → Option β) (g : α → β) :
    ∀ (l : List α), (∀ a ∈ l, f a = some (g a)) → l.filterMap f = l.map g := by
  intro l
  induction l with
  | nil => intro _; rfl
  | cons x xs ih =>
    intro h
    rw [List.filterMap_cons, h x (List.mem_cons_self x xs), List.map_cons,
      ih (fun a ha => h a (List.mem_cons_of_mem x ha))]

/-- The cleanup collection loop on a block of scenario entries. -/
theorem collect_mkEntries (l n : Nat) :
    collectNavContexts (mkEntries l n)
      = (List.range' l n).map (fun j => ((demoEntry j).1, (j : Int))) := by
  rw [mkEntries, collectNavContexts, List.filterMap_map]
  apply filterMap_eq_map_of_some
  intro j _
  simp [Function.comp, demoEntry, startsWith_navKeyStr]

/-- A key of a later step is absent from an earlier block. -/
theorem sessionContains_mkEntries_false (l n j : Nat) (hj : l + n ≤ j) :
    sessionContains (mkEntries l n) (demoEntry j).1 = false := by
  rw [sessionContains, List.any_eq_false]
  intro kv hkv
  rw [mkEntries] at hkv
  rcases List.mem_map.mp hkv with ⟨x, hx, rfl⟩
  have hb := mem_range'_bounds hx
  simp [demoEntry_key_ne (show x ≠ j by omega)]

/-- Writing a fresh key appends the entry. -/
theorem sessionSet_append (s : Session) (k : String) (v : SVal)
    (h : sessionContains s k = false) : sessionSet s k v = s ++ [(k, v)] := by
  simp [sessionSet, h]

/-- Appending the next entry extends a block. -/
theorem mkEntries_concat (l n : Nat) :
    mkEntries l n ++ [demoEntry (l + n)] = mkEntries l (n + 1) := by
  rw [mkEntries, mkEntries, List.range'_1_concat, List.map_append]
  rfl

/-- Sorting an already strictly-ascending list by timestamp is the identity. -/
theorem sortByTimestamp_sorted_id : ∀ (L : List (String × Int)),
    L.Pairwise (fun a b => a.2 < b.2) → sortByTimestamp L = L := by
  intro L h
  induction L with
  | nil => rfl
  | cons x xs ih =>
    rw [sortByTimestamp, ih (List.Pairwise.of_cons h)]
    cases xs with
    | nil => rfl
    | cons y ys =>
      have hxy : x.2 < y.2 := (List.pairwise_cons.mp h).1 y (List.mem_cons_self y ys)
      rw [insertByTimestamp, if_neg (by omega)]

/-- The collected contexts of a block are strictly ascending in timestamp. -/
theorem pairwise_collect_mkEntries (l n : Nat) :
    ((List.range' l n).map (fun j => ((demoEntry j).1, (j : Int)))).Pairwise
      (fun a b => a.2 < b.2) := by
  rw [List.pairwise_map]
  have hpw : (List.range' l n).Pairwise (· < ·) := by
    induction n generalizing l with
    | zero => exact List.Pairwise.nil
    | succ n ih =>
      rw [List.range'_succ, List.pairwise_cons]
      refine ⟨?_, ih (l + 1)⟩
      intro a ha
      have hb := mem_range'_bounds ha
      omega
  refine hpw.imp ?_
  intro a b hab
  simpa using hab

/-- Deleting the key of the oldest entry from a block drops its head. -/
theorem deleteKeys_head_mkEntries (l n : Nat) :
    sessionDeleteKeys (mkEntries l (n + 1)) [(demoEntry l).1] = mkEntries (l + 1) n := by
  rw [mkEntries, List.range'_succ, List.map_cons, sessionDeleteKeys, List.filter_cons]
  have hhead : (!(([(demoEntry l).1] : List String).contains (demoEntry l).1)) = false := by
    simp
  rw [hhead, if_neg Bool.false_ne_true]
  have hall : ∀ kv ∈ (List.range' (l + 1) n).map demoEntry,
      (!(([(demoEntry l).1] : List String).contains kv.1)) = true := by
    intro kv hkv
    rcases List.mem_map.mp hkv with ⟨j, hj, rfl⟩
    have hb := mem_range'_bounds hj
    simp [demoEntry_key_ne (show j ≠ l by omega)]
  rw [List.filter_eq_self.mpr hall]
  rfl

/-- Cleanup is a no-op while the entry count is under the limit. -/
theorem cleanup_lazy_skip (cfg : NavConfig) (now : Int) (s : Session)
    (h : (collectNavContexts s).length < cfg.max_contexts) :
    cleanup_expired_navigation_data cfg now s false = s := by
  unfold cleanup_expired_navigation_data
  rw [if_pos ⟨rfl, Or.inr h⟩]

/-- When a full block of N live entries is cleaned up before a write, the
oldest entry is evicted and the rest survive. -/
theorem cleanup_evicts_oldest (N : Nat) (timeout now : Int) (l : Nat) (hN : 1 ≤ N)
    (hlive : ∀ j : Nat, l ≤ j → j < l + N → now - (j : Int) ≤ timeout) :
    cleanup_expired_navigation_data (demoConfig N timeout) now (mkEntries l N) false
      = mkEntries (l + 1) (N - 1) := by
  have hcoll := collect_mkEntries l N
  have hlen : (collectNavContexts (mkEntries l N)).length = N := by
    rw [hcoll, List.length_map, List.length_range']
  unfold cleanup_expired_navigation_data
  rw [demoConfig_max, if_neg (by
    rintro ⟨-, h0 | hlt⟩
    · omega
    · rw [hlen] at hlt
      omega)]
  unfold cleanup_run
  rw [demoConfig_max, demoConfig_timeout]
  have hexpired : (collectNavContexts (mkEntries l N)).filter
      (fun x => decide (timeout < now - x.2)) = [] := by
    rw [List.filter_eq_nil_iff]
    intro x hx
    rw [hcoll] at hx
    rcases List.mem_map.mp hx with ⟨j, hj, rfl⟩
    have hb := mem_range'_bounds hj
    have hl2 := hlive j hb.1 hb.2
    simp only [decide_eq_true_eq]
    omega
  have hkept : (collectNavContexts (mkEntries l N)).filter
      (fun x => !(decide (timeout < now - x.2)))
      = (List.range' l N).map (fun j => ((demoEntry j).1, (j : Int))) := by
    rw [← hcoll, List.filter_eq_self]
    intro x hx
    rw [hcoll] at hx
    rcases List.mem_map.mp hx with ⟨j, hj, rfl⟩
    have hb := mem_range'_bounds hj
    have hl2 := hlive j hb.1 hb.2
    simp only [Bool.not_eq_true', decide_eq_false_iff_not]
    omega
  rw [hexpired, hkept, List.map_nil, sessionDeleteKeys_nil]
  rw [if_pos (by
    refine ⟨by omega, ?_⟩
    rw [List.length_map, List.length_range'])]
  rw [sortByTimestamp_sorted_id _ (pairwise_collect_mkEntries l N), List.length_map,
    List.length_range']
  have hone : N - N + 1 = 1 := by omega
  rw [hone]
  obtain ⟨M, rfl⟩ : ∃ M, N = M + 1 := ⟨N - 1, by omega⟩
  rw [List.range'_succ, List.map_cons, List.take_succ_cons, List.take_zero, List.map_cons,
    List.map_nil]
  have hfst : (Prod.fst ((demoEntry l).1, (l : Int))) = (demoEntry l).1 := rfl
  rw [hfst]
  have hMsub : M + 1 - 1 = M := rfl
  rw [hMsub]
  have hgoal := deleteKeys_head_mkEntries l M
  rw [mkEntries, List.range'_succ, List.map_cons] at hgoal
  exact hgoal

/-- One insertion step of the scenario: cleanup, then append of the fresh
entry demoEntry j. -/
theorem store_navigation_pks_demo (N : Nat) (timeout : Int) (s : Session) (j : Nat)
    (hj : 1 ≤ j) :
    store_navigation_pks (demoConfig N timeout) true s [1] (navTok j) none ((j : Nat) : Int) "r"
      = sessionSet
          (cleanup_expired_navigation_data (demoConfig N timeout) ((j : Nat) : Int) s false)
          (demoEntry j).1 (demoEntry j).2 := by
  have hlim : limit_pks_around_current 500 50 [1] none = [1] := by decide
  unfold store_navigation_pks
  rw [if_neg (by simp), demoConfig_pk, demoConfig_window, hlim]
  simp [demoEntry, storage_get_navigation_session_key, navTok_ne_empty hj]

/-- Shape of the session after k insertions: the most recent min(k, N)
entries survive, oldest first. -/
theorem insertSeq_shape (N : Nat) (timeout : Int) (hN : 1 ≤ N) (ht : (N : Int) ≤ timeout) :
    ∀ k, insertSeq N timeout k = mkEntries (k + 1 - min k N) (min k N) := by
  intro k
  induction k with
  | zero =>
    show ([] : Session) = mkEntries (0 + 1 - min 0 N) (min 0 N)
    rw [Nat.zero_min]
    rfl
  | succ k ih =>
    have hunfold : insertSeq N timeout (k + 1)
        = store_navigation_pks (demoConfig N timeout) true (insertSeq N timeout k)
            [1] (navTok (k + 1)) none ((k + 1 : Nat) : Int) "r" := rfl
    rw [hunfold, store_navigation_pks_demo N timeout _ (k + 1) (by omega), ih]
    by_cases hk : k < N
    · have hmink : min k N = k := by omega
      have hmink1 : min (k + 1) N = k + 1 := by omega
      rw [hmink, hmink1]
      rw [show k + 1 - k = 1 by omega, show k + 1 + 1 - (k + 1) = 1 by omega]
      rw [cleanup_lazy_skip _ _ _ (by
        rw [collect_mkEntries, List.length_map, List.length_range', demoConfig_max]
        exact hk)]
      rw [sessionSet_append _ _ _ (sessionContains_mkEntries_false 1 k (k + 1) (by omega))]
      have hconcat := mkEntries_concat 1 k
      rw [show 1 + k = k + 1 by omega] at hconcat
      exact hconcat
    · have hge : N ≤ k := by omega
      have hmink : min k N = N := by omega
      have hmink1 : min (k + 1) N = N := by omega
      rw [hmink1, hmink]
      rw [cleanup_evicts_oldest N timeout _ _ hN (by
        intro j hj1 hj2
        omega)]
      rw [sessionSet_append _ _ _
        (sessionContains_mkEntries_false (k + 1 - N + 1) (N - 1) (k + 1) (by omega))]
      have hconcat := mkEntries_concat (k + 1 - N + 1) (N - 1)
      rw [show k + 1 - N + 1 + (N - 1) = k + 1 by omega] at hconcat
      rw [show N - 1 + 1 = N by omega] at hconcat
      rw [show k + 1 + 1 - N = k + 1 - N + 1 by omega]
      exact hconcat

/-- Claim C3: with max_contexts = N ≥ 1, inserting N + 5 entries in sequence
via store_navigation_pks (each write preceded by its lazy cleanup call)
leaves exactly N live entries in the session, and the survivors are the N
most-recently-created entries (steps 6 through N + 5). -/
theorem eviction_keeps_most_recent (N : Nat) (timeout : Int) (hN : 1 ≤ N)
    (ht : (N : Int) ≤ timeout) :
    insertSeq N timeout (N + 5) = mkEntries 6 N ∧
    (insertSeq N timeout (N + 5)).length = N ∧
    (insertSeq N timeout (N + 5)).all (entryLive ((N + 5 : Nat) : Int) timeout) = true := by
  have hshape := insertSeq_shape N timeout hN ht (N + 5)
  have hmin : min (N + 5) N = N := by omega
  rw [hmin] at hshape
  rw [show N + 5 + 1 - N = 6 by omega] at hshape
  refine ⟨hshape, ?_, ?_⟩
  · rw [hshape, mkEntries, List.length_map, List.length_range']
  · rw [hshape, mkEntries, List.all_eq_true]
    intro kv hkv
    rcases List.mem_map.mp hkv with ⟨j, hj, rfl⟩
    have hb := mem_range'_bounds hj
    simp only [entryLive, demoEntry, decide_eq_true_eq]
    omega

/-- Witness for eviction_keeps_most_recent at N = 1, timeout = 3600:
six insertions leave exactly the single most recent entry. -/
theorem eviction_keeps_most_recent_witness :
    1 ≤ 1 ∧ ((1 : Nat) : Int) ≤ 3600 ∧
    (insertSeq 1 3600 (1 + 5) = mkEntries 6 1 ∧
     (insertSeq 1 3600 (1 + 5)).length = 1 ∧
     (insertSeq 1 3600 (1 + 5)).all (entryLive ((1 + 5 : Nat) : Int) 3600) = true) :=
  ⟨by decide, by decide, eviction_keeps_most_recent 1 3600 (by decide) (by decide)⟩
